import Mathlib

/-!
Shallow embedding of the libdns-websupport provider (websupport/provider.go)
and proofs about its record reconciliation, request signing, pagination and
error handling.  Each definition mirrors one Go function or inline code block
of the source; the mapping is noted in the doc comments.
-/

set_option maxRecDepth 10000

namespace Websupport

/-! ## Data model -/

/-- `libdns.TXT`: name, text, TTL (a `time.Duration`, modelled as signed
nanoseconds) and `ProviderData` (modelled as `some s` when it holds a Go
string `s`, `none` when it is nil or a non-string value). -/
structure TXT where
  name : String
  text : String
  ttlNs : Int
  providerData : Option String
deriving Repr, DecidableEq

/-- A `libdns.Record`: either a `*libdns.TXT` (the only variant this client
handles) or any other record type, which every operation skips after a failed
type assertion. -/
inductive Record where
  | txt (r : TXT)
  | other
deriving Repr, DecidableEq

/-- An `http.Client`; only its timeout is observable in this client. -/
structure HTTPClient where
  timeoutNs : Int
deriving Repr, DecidableEq

/-- The `Provider` struct of the source. -/
structure Provider where
  apiKey : String
  apiSecret : String
  apiBase : String
  serviceID : String
  httpClient : Option HTTPClient
  timeoutNs : Int
deriving Repr, DecidableEq

/-- `ensureClient`: lazily installs a fresh client with a fixed 30-second
timeout when none is set, and separately defaults the `Timeout` field. -/
def ensureClient (p : Provider) : Provider :=
  let p1 := match p.httpClient with
    | none => { p with httpClient := some { timeoutNs := 30 * 1000000000 } }
    | some _ => p
  if p1.timeoutNs = 0 then { p1 with timeoutNs := 30 * 1000000000 } else p1

/-! ## UTF-8, SHA-1, HMAC and hex (the `calculateSignature` stack) -/

/-- Standard UTF-8 encoding of one scalar value (what Go's `[]byte(string)`
produces per rune). -/
def charUtf8 (c : Char) : List Nat :=
  let n := c.toNat
  if n < 128 then [n]
  else if n < 2048 then [192 ||| (n >>> 6), 128 ||| (n &&& 63)]
  else if n < 65536 then
    [224 ||| (n >>> 12), 128 ||| ((n >>> 6) &&& 63), 128 ||| (n &&& 63)]
  else
    [240 ||| (n >>> 18), 128 ||| ((n >>> 12) &&& 63),
     128 ||| ((n >>> 6) &&& 63), 128 ||| (n &&& 63)]

/-- Go's `[]byte(s)`. -/
def utf8Bytes (s : String) : List Nat :=
  s.data.flatMap charUtf8

/-- 2^32, the modulus of 32-bit words. -/
def M32 : Nat := 4294967296

/-- Rotate a 32-bit word left by `n` bits. -/
def rotl (n x : Nat) : Nat :=
  ((x <<< n) % M32) ||| (x >>> (32 - n))

/-- The SHA-1 round function. -/
def shaF (t b c d : Nat) : Nat :=
  if t < 20 then (b &&& c) ||| ((b ^^^ 4294967295) &&& d)
  else if t < 40 then b ^^^ c ^^^ d
  else if t < 60 then (b &&& c) ||| (b &&& d) ||| (c &&& d)
  else b ^^^ c ^^^ d

/-- The SHA-1 round constants. -/
def shaK (t : Nat) : Nat :=
  if t < 20 then 1518500249
  else if t < 40 then 1859775393
  else if t < 60 then 2400959708
  else 3395469782

/-- Big-endian 32-bit words from a list of bytes. -/
def toWords : List Nat → List Nat
  | b0 :: b1 :: b2 :: b3 :: rest =>
    (((b0 * 256 + b1) * 256 + b2) * 256 + b3) :: toWords rest
  | _ => []

/-- Extend the 16 schedule words to 80, `k` extension steps at a time. -/
def sha1Extend (w : Array Nat) : Nat → Array Nat
  | 0 => w
  | k + 1 =>
    let x := rotl 1 ((w.getD (w.size - 3) 0) ^^^ (w.getD (w.size - 8) 0) ^^^
                     (w.getD (w.size - 14) 0) ^^^ (w.getD (w.size - 16) 0))
    sha1Extend (w.push x) k

/-- One SHA-1 compression of a 64-byte block into the running state. -/
def sha1Compress (st : Nat × Nat × Nat × Nat × Nat) (block : List Nat) :
    Nat × Nat × Nat × Nat × Nat :=
  let (h0, h1, h2, h3, h4) := st
  let w := sha1Extend (toWords block).toArray 64
  let step := fun (s : Nat × Nat × Nat × Nat × Nat) (t : Nat) =>
    let (a, b, c, d, e) := s
    let temp := (rotl 5 a + shaF t b c d + e + shaK t + w.getD t 0) % M32
    (temp, a, rotl 30 b, c, d)
  let (a, b, c, d, e) := (List.range 80).foldl step (h0, h1, h2, h3, h4)
  ((h0 + a) % M32, (h1 + b) % M32, (h2 + c) % M32, (h3 + d) % M32, (h4 + e) % M32)

/-- `k` big-endian bytes of `n` (most significant first). -/
def beBytes : Nat → Nat → List Nat
  | 0, _ => []
  | k + 1, n => beBytes k (n / 256) ++ [n % 256]

/-- SHA-1 padding: 0x80, zeros to 56 mod 64, then the 64-bit bit length. -/
def sha1Pad (msg : List Nat) : List Nat :=
  let len := msg.length
  msg ++ [128] ++ List.replicate ((119 - len % 64) % 64) 0 ++ beBytes 8 (len * 8)

/-- Split a byte list into 64-byte blocks (structural recursion on a fuel
bound; each step consumes at least one byte, so `l.length` steps suffice). -/
def chunksAux : Nat → List Nat → List (List Nat)
  | 0, _ => []
  | _, [] => []
  | fuel + 1, l => l.take 64 :: chunksAux fuel (l.drop 64)

/-- Split a byte list into 64-byte blocks. -/
def chunks64 (l : List Nat) : List (List Nat) :=
  chunksAux l.length l

/-- SHA-1 of a byte list (Go `crypto/sha1`). -/
def sha1 (msg : List Nat) : List Nat :=
  let blocks := chunks64 (sha1Pad msg)
  let (h0, h1, h2, h3, h4) :=
    blocks.foldl sha1Compress (1732584193, 4023233417, 2562383102, 271733878, 3285377520)
  beBytes 4 h0 ++ beBytes 4 h1 ++ beBytes 4 h2 ++ beBytes 4 h3 ++ beBytes 4 h4

/-- HMAC-SHA1 (Go `crypto/hmac` with `sha1.New`): block size 64. -/
def hmacSha1 (key msg : List Nat) : List Nat :=
  let k0 := if 64 < key.length then sha1 key else key
  let k := k0 ++ List.replicate (64 - k0.length) 0
  let inner := sha1 ((k.map fun b => b ^^^ 54) ++ msg)
  sha1 ((k.map fun b => b ^^^ 92) ++ inner)

/-- The sixteen lowercase hex digits, in order (Go `encoding/hex`'s
`hextable`). -/
def hexChars : List Char :=
  ( "0123456789abcdef" ).data

/-- The hex digit of a value below 16. -/
def hexDigit (n : Nat) : Char :=
  hexChars.getD n '0'

/-- `hex.EncodeToString`: two lowercase hex digits per byte. -/
def hexEncode (bs : List Nat) : String :=
  String.mk (bs.flatMap fun b => [hexDigit (b / 16 % 16), hexDigit (b % 16)])

/-- `calculateSignature`: HMAC-SHA1 over `"{METHOD} {PATH} {TIMESTAMP}"`
keyed by the API secret, hex encoded. -/
def calculateSignature (p : Provider) (method path : String) (timestamp : Int) : String :=
  let canonicalRequest := method ++ " " ++ path ++ " " ++ toString timestamp
  hexEncode (hmacSha1 (utf8Bytes p.apiSecret) (utf8Bytes canonicalRequest))

/-! ## String helpers and request paths -/

/-- Go `strings.TrimSuffix`: remove one occurrence of `suf` when present
(modelled on the character sequence; byte-level and rune-level suffix
matching agree on valid UTF-8). -/
def trimSuffix (s suf : String) : String :=
  if suf.data.isSuffixOf s.data then
    String.mk (s.data.take (s.data.length - suf.data.length))
  else s

/-- The configuration error message shared by all three operations. -/
def cfgMsg : String :=
  "ServiceID is required - set WEBSUPPORT_SERVICE_ID environment variable"

/-- Error kinds the operations can surface. -/
inductive WErr where
  | configErr (msg : String)
  | transportErr (e : String)
  | remoteErr (status : Nat) (body : String)
  | decodeErr
deriving Repr, DecidableEq

/-- Literal HTTP path of the creation request (`AppendRecords`). -/
def createUrlPath (sid : String) : String :=
  "/service/" ++ sid ++ "/dns/record"

/-- Signed path of the creation request (`AppendRecords`). -/
def createSigPath (sid : String) : String :=
  "/v2/service/" ++ sid ++ "/dns/record"

/-- Literal HTTP path of the deletion request (`DeleteRecords`). -/
def deleteUrlPath (sid id : String) : String :=
  "/service/" ++ sid ++ "/dns/record/" ++ id

/-- Signed path of the deletion request (`DeleteRecords`). -/
def deleteSigPath (sid id : String) : String :=
  "/v2/service/" ++ sid ++ "/dns/record/" ++ id

/-- Literal HTTP path of the listing request (`GetRecords`), with query. -/
def listUrlPath (sid : String) (page : Nat) : String :=
  "/service/" ++ sid ++ "/dns/record?page=" ++ toString page ++ "&rowsPerPage=100"

/-- Signed path of the listing request (`GetRecords`): no query string. -/
def listSigPath (sid : String) : String :=
  "/v2/service/" ++ sid ++ "/dns/record"

/-- The creation request body built by `fmt.Sprintf` in `AppendRecords`:
direct interpolation of name and text, TTL printed in whole seconds
(`int(r.TTL.Seconds())`, i.e. truncation toward zero). -/
def makeBody (name text : String) (ttlSec : Int) : String :=
  "\x7b\"type\":\"TXT\",\"name\":\"" ++ name ++ "\",\"content\":\"" ++ text ++
    "\",\"ttl\":" ++ toString ttlSec ++ "\x7d"

/-- `time.Duration.Seconds()` truncated by Go's `int(...)` conversion:
division toward zero (exact for all durations below 2^53 ns). -/
def durSeconds (ns : Int) : Int :=
  Int.tdiv ns 1000000000

/-! ## GetRecords -/

/-- One wire record of the listing response (`result.Data` element). -/
structure WireItem where
  id : Int
  name : String
  type : String
  content : String
  ttl : Int
deriving Repr, DecidableEq

/-- One decoded page of the listing response. -/
structure ListPage where
  currentPage : Int
  totalPages : Int
  totalRecords : Int
  data : List WireItem
deriving Repr, DecidableEq

/-- Outcome of one listing request: a transport failure from `Do`, or a
response with status, raw body, and (when JSON decoding succeeds) a page. -/
inductive PageReply where
  | transportErr (e : String)
  | reply (status : Nat) (rawBody : String) (decoded : Option ListPage)
deriving Repr, DecidableEq

/-- The conversion from a wire item to a `libdns.TXT` in `GetRecords`:
`TTL` scaled to a duration, `ProviderData` the decimal string of the id. -/
def wireToTXT (item : WireItem) : TXT :=
  { name := item.name
    text := item.content
    ttlNs := item.ttl * 1000000000
    providerData := some (toString item.id) }

/-- The TXT filter in `GetRecords`' page loop: non-TXT items are skipped. -/
def pageRecords (pg : ListPage) : List Record :=
  pg.data.filterMap fun item =>
    if item.type = "TXT" then some (Record.txt (wireToTXT item)) else none

/-- The `for` loop of `GetRecords`: fetch page after page starting from
`page`, accumulate TXT records, stop once `currentPage >= totalPages`.
The Go loop has no bound, so the model takes fuel and returns `none` when
it runs out.  Also returns the literal request paths, in order. -/
def getRecordsGo (sid : String) (server : Nat → PageReply) :
    Nat → Nat → List Record → List String × Option (Except WErr (List Record))
  | 0, _, _ => ([], none)
  | fuel + 1, page, acc =>
    match server page with
    | .transportErr e => ([listUrlPath sid page], some (.error (.transportErr e)))
    | .reply status raw decoded =>
      if status ≠ 200 then
        ([listUrlPath sid page], some (.error (.remoteErr status raw)))
      else
        match decoded with
        | none => ([listUrlPath sid page], some (.error .decodeErr))
        | some pg =>
          if pg.currentPage ≥ pg.totalPages then
            ([listUrlPath sid page], some (.ok (acc ++ pageRecords pg)))
          else
            (listUrlPath sid page ::
               (getRecordsGo sid server fuel (page + 1) (acc ++ pageRecords pg)).1,
             (getRecordsGo sid server fuel (page + 1) (acc ++ pageRecords pg)).2)

/-- `GetRecords`: config check, then the page loop from page 1. -/
def GetRecords (p : Provider) (server : Nat → PageReply) (fuel : Nat) :
    List String × Option (Except WErr (List Record)) :=
  if p.serviceID = "" then ([], some (.error (.configErr cfgMsg)))
  else getRecordsGo p.serviceID server fuel 1 []

/-! ## AppendRecords -/

/-- Outcome of one creation or deletion request. -/
inductive HttpReply where
  | transportErr (e : String)
  | reply (status : Nat) (body : String)
deriving Repr, DecidableEq

/-- The TTL defaulting at the top of `AppendRecords`' loop body. -/
def defTTL (r : TXT) : TXT :=
  if r.ttlNs = 0 then { r with ttlNs := 120 * 1000000000 } else r

/-- The reconciliation search in `AppendRecords`: first listed TXT record
whose name, stripped of one trailing dot and then of one trailing
`"." ++ zone-without-trailing-dot` suffix, equals the input name stripped
of one trailing dot, and whose text equals the input text. -/
def findCreatedMatch (zone : String) (r : TXT) : List Record → Option TXT
  | [] => none
  | Record.other :: rest => findCreatedMatch zone r rest
  | Record.txt t :: rest =>
    if trimSuffix (trimSuffix t.name ".") ("." ++ trimSuffix zone ".") =
         trimSuffix r.name "." ∧ t.text = r.text
    then some t
    else findCreatedMatch zone r rest

/-- The per-record reconciliation after a successful creation: on a
successful listing, copy the first match's identifier; otherwise leave the
record untouched (soft failure). -/
def reconcile (zone : String) (r : TXT) : Except WErr (List Record) → TXT
  | .ok l =>
    match findCreatedMatch zone r l with
    | some t => { r with providerData := t.providerData }
    | none => r
  | .error _ => r

/-- The creation request of one record: literal path and interpolated body
(TTL defaulted first, as in the source). -/
def createPost (sid : String) (r : TXT) : String × String :=
  (createUrlPath sid, makeBody (defTTL r).name (defTTL r).text (durSeconds (defTTL r).ttlNs))

/-- The loop of `AppendRecords`.  `server n` is the response to the `n`-th
creation request, `doList n` the outcome of the `GetRecords` call after the
`n`-th successful creation.  Returns the creation requests issued (path and
body, in order) and the result. -/
def appendGo (sid zone : String) (server : Nat → HttpReply)
    (doList : Nat → Except WErr (List Record)) :
    List Record → Nat → List (String × String) × Except WErr (List Record)
  | [], _ => ([], .ok [])
  | Record.other :: rest, n => appendGo sid zone server doList rest n
  | Record.txt r :: rest, n =>
    match server n with
    | .transportErr e => ([createPost sid r], .error (.transportErr e))
    | .reply status body =>
      if status ≠ 204 then ([createPost sid r], .error (.remoteErr status body))
      else
        (createPost sid r :: (appendGo sid zone server doList rest (n + 1)).1,
         (appendGo sid zone server doList rest (n + 1)).2.map
           fun l => Record.txt (reconcile zone (defTTL r) (doList n)) :: l)

/-- `AppendRecords`: config check, then the creation loop. -/
def AppendRecords (p : Provider) (zone : String) (recs : List Record)
    (server : Nat → HttpReply) (doList : Nat → Except WErr (List Record)) :
    List (String × String) × Except WErr (List Record) :=
  if p.serviceID = "" then ([], .error (.configErr cfgMsg))
  else appendGo p.serviceID zone server doList recs 0

/-! ## DeleteRecords -/

/-- The fallback search in `DeleteRecords`: first listed TXT record with
exactly equal name and exactly equal text — no dot or zone-suffix
normalization. -/
def findDeleteMatch (r : TXT) : List Record → Option TXT
  | [] => none
  | Record.other :: rest => findDeleteMatch r rest
  | Record.txt t :: rest =>
    if t.name = r.name ∧ t.text = r.text then some t
    else findDeleteMatch r rest

/-- The identifier held by a record, as the Go type assertion
`r.ProviderData.(string)` sees it: the string, or `""` when it is not a
string. -/
def recID (r : TXT) : String :=
  r.providerData.getD ""

/-- The loop of `DeleteRecords`.  `server n` is the response to the `n`-th
deletion request, `doList k` the outcome of the `k`-th `GetRecords` call
(the Go loop resolves a missing identifier by listing, searching for an
exact name and text match, and taking that record's `ProviderData` string —
skipping the record silently when the listing fails, no match is found, or
the match carries no usable identifier).
Returns (number of listing calls, deletion request paths, result). -/
def deleteGo (sid zone : String) (server : Nat → HttpReply)
    (doList : Nat → Except WErr (List Record)) :
    List Record → Nat → Nat → Nat × List String × Except WErr (List Record)
  | [], _, _ => (0, [], .ok [])
  | Record.other :: rest, dn, ln => deleteGo sid zone server doList rest dn ln
  | Record.txt r :: rest, dn, ln =>
    if recID r ≠ "" then
      match server dn with
      | .transportErr e => (0, [deleteUrlPath sid (recID r)], .error (.transportErr e))
      | .reply status _ =>
        if status ≠ 204 then
          (0, [deleteUrlPath sid (recID r)], .error (.remoteErr status ""))
        else
          ((deleteGo sid zone server doList rest (dn + 1) ln).1,
           deleteUrlPath sid (recID r) :: (deleteGo sid zone server doList rest (dn + 1) ln).2.1,
           (deleteGo sid zone server doList rest (dn + 1) ln).2.2.map
             fun l => Record.txt r :: l)
    else
      match doList ln with
      | .error _ =>
        ((deleteGo sid zone server doList rest dn (ln + 1)).1 + 1,
         (deleteGo sid zone server doList rest dn (ln + 1)).2.1,
         (deleteGo sid zone server doList rest dn (ln + 1)).2.2)
      | .ok l =>
        match findDeleteMatch r l with
        | none =>
          ((deleteGo sid zone server doList rest dn (ln + 1)).1 + 1,
           (deleteGo sid zone server doList rest dn (ln + 1)).2.1,
           (deleteGo sid zone server doList rest dn (ln + 1)).2.2)
        | some t =>
          if recID t = "" then
            ((deleteGo sid zone server doList rest dn (ln + 1)).1 + 1,
             (deleteGo sid zone server doList rest dn (ln + 1)).2.1,
             (deleteGo sid zone server doList rest dn (ln + 1)).2.2)
          else
            match server dn with
            | .transportErr e =>
              (1, [deleteUrlPath sid (recID t)], .error (.transportErr e))
            | .reply status _ =>
              if status ≠ 204 then
                (1, [deleteUrlPath sid (recID t)], .error (.remoteErr status ""))
              else
                ((deleteGo sid zone server doList rest (dn + 1) (ln + 1)).1 + 1,
                 deleteUrlPath sid (recID t) ::
                   (deleteGo sid zone server doList rest (dn + 1) (ln + 1)).2.1,
                 (deleteGo sid zone server doList rest (dn + 1) (ln + 1)).2.2.map
                   fun l => Record.txt r :: l)

/-- `DeleteRecords`: config check, then the deletion loop. -/
def DeleteRecords (p : Provider) (zone : String) (recs : List Record)
    (server : Nat → HttpReply) (doList : Nat → Except WErr (List Record)) :
    Nat × List String × Except WErr (List Record) :=
  if p.serviceID = "" then (0, [], .error (.configErr cfgMsg))
  else deleteGo p.serviceID zone server doList recs 0 0

/-! ## Helper lemmas -/

theorem str_ext {s t : String} (h : s.data = t.data) : s = t := by
  cases s
  cases t
  exact congrArg String.mk h

/-- A valid concrete configuration, used by witnesses. -/
def pOk : Provider :=
  { apiKey := "k", apiSecret := "s", apiBase := "", serviceID := "1",
    httpClient := none, timeoutNs := 0 }

/-- A configuration with empty API key and secret but a service identifier. -/
def pNoCreds : Provider :=
  { apiKey := "", apiSecret := "", apiBase := "", serviceID := "1",
    httpClient := none, timeoutNs := 0 }

/-- A configuration with an empty service identifier. -/
def pNoSid : Provider :=
  { apiKey := "k", apiSecret := "s", apiBase := "", serviceID := "",
    httpClient := none, timeoutNs := 0 }

/-- A one-page empty listing reply, used by witnesses. -/
def onePageEmpty : PageReply :=
  PageReply.reply 200 ""
    (some { currentPage := 1, totalPages := 1, totalRecords := 0, data := [] })

/-! ## C10: the Timeout field is never consulted -/

/-- C10: when no HTTP client was supplied, `ensureClient` installs a client
with the fixed 30-second timeout whatever the `Timeout` field holds, and no
operation's behaviour depends on the `Timeout` field. -/
theorem client_fixed_timeout (p : Provider) (t t' : Int) :
    (p.httpClient = none →
      (ensureClient { p with timeoutNs := t }).httpClient =
        some { timeoutNs := 30 * 1000000000 }) ∧
    (∀ zone recs server doList,
      AppendRecords { p with timeoutNs := t } zone recs server doList =
        AppendRecords { p with timeoutNs := t' } zone recs server doList) ∧
    (∀ zone recs server doList,
      DeleteRecords { p with timeoutNs := t } zone recs server doList =
        DeleteRecords { p with timeoutNs := t' } zone recs server doList) ∧
    (∀ server fuel,
      GetRecords { p with timeoutNs := t } server fuel =
        GetRecords { p with timeoutNs := t' } server fuel) := by
  refine ⟨fun h => ?_, fun zone recs server doList => rfl,
    fun zone recs server doList => rfl, fun server fuel => rfl⟩
  simp only [ensureClient, h]
  split <;> rfl

/-- Witness for C10 at a concrete provider with a non-zero Timeout. -/
theorem client_fixed_timeout_witness :
    pOk.httpClient = none ∧
    (ensureClient { pOk with timeoutNs := 5000000000 }).httpClient =
      some { timeoutNs := 30 * 1000000000 } :=
  ⟨rfl, (client_fixed_timeout pOk 5000000000 0).1 rfl⟩

/-! ## C2: which configuration fields are validated -/

/-- C2 counterexample: with an empty API key AND an empty API secret but a
non-empty service identifier, `GetRecords` does not fail with a
configuration error — it issues a listing request and succeeds.  The claim
that every operation fails before any HTTP request when the key or secret
is empty is therefore false of the code. -/
theorem empty_credentials_not_checked :
    pNoCreds.apiKey = "" ∧ pNoCreds.apiSecret = "" ∧
    (GetRecords pNoCreds (fun _ => onePageEmpty) 2).1 = [ listUrlPath "1" 1 ] ∧
    (GetRecords pNoCreds (fun _ => onePageEmpty) 2).2 = some (Except.ok []) :=
  ⟨rfl, rfl, rfl, rfl⟩

/-- C2 (amended): every operation fails with the fatal configuration error
before issuing any request when the service identifier is empty; the API
key and secret are not validated. -/
theorem ops_require_serviceID (p : Provider) (zone : String) (recs : List Record)
    (server : Nat → HttpReply) (pserver : Nat → PageReply)
    (doList : Nat → Except WErr (List Record)) (fuel : Nat)
    (h : p.serviceID = "") :
    AppendRecords p zone recs server doList =
      ([], Except.error (WErr.configErr cfgMsg)) ∧
    DeleteRecords p zone recs server doList =
      (0, [], Except.error (WErr.configErr cfgMsg)) ∧
    GetRecords p pserver fuel = ([], some (Except.error (WErr.configErr cfgMsg))) := by
  refine ⟨?_, ?_, ?_⟩ <;> simp [AppendRecords, DeleteRecords, GetRecords, h]

/-- Witness for the amended C2 at a concrete empty-serviceID provider. -/
theorem ops_require_serviceID_witness :
    pNoSid.serviceID = "" ∧
    GetRecords pNoSid (fun _ => PageReply.transportErr "unused") 3 =
      ([], some (Except.error (WErr.configErr cfgMsg))) :=
  ⟨rfl, (ops_require_serviceID pNoSid "example.com" []
    (fun _ => HttpReply.transportErr "unused")
    (fun _ => PageReply.transportErr "unused")
    (fun _ => Except.error WErr.decodeErr) 3 rfl).2.2⟩

/-! ## C4: literal versus signed request paths -/

/-- C4: for all three requests the literal HTTP path carries no `/v2`
prefix while the signed path is exactly `/v2` prepended to it, and for the
listing request the signed path moreover omits the query string (it equals
the creation signed path, and the literal listing path is the unversioned
path plus the `?page=N&rowsPerPage=100` query). -/
theorem request_paths_v2_asymmetry (sid id : String) (page : Nat) :
    (∀ rest : String, createUrlPath sid ≠ "/v2" ++ rest) ∧
    (∀ rest : String, deleteUrlPath sid id ≠ "/v2" ++ rest) ∧
    (∀ rest : String, listUrlPath sid page ≠ "/v2" ++ rest) ∧
    createSigPath sid = "/v2" ++ createUrlPath sid ∧
    deleteSigPath sid id = "/v2" ++ deleteUrlPath sid id ∧
    listSigPath sid = createSigPath sid ∧
    "/v2" ++ listUrlPath sid page =
      listSigPath sid ++ ( "?page=" ++ toString page ++ "&rowsPerPage=100" ) := by
  refine ⟨fun rest h => ?_, fun rest h => ?_, fun rest h => ?_, ?_, ?_, rfl, ?_⟩
  · have h2 := congrArg String.data h
    simp [createUrlPath, String.data_append] at h2
  · have h2 := congrArg String.data h
    simp [deleteUrlPath, String.data_append] at h2
  · have h2 := congrArg String.data h
    simp [listUrlPath, String.data_append] at h2
  · refine str_ext ?_
    simp [createSigPath, createUrlPath, String.data_append]
  · refine str_ext ?_
    simp [deleteSigPath, deleteUrlPath, String.data_append]
  · refine str_ext ?_
    simp [listUrlPath, listSigPath, String.data_append]

/-- Witness for C4 at the spec's concrete service identifier. -/
theorem request_paths_v2_asymmetry_witness :
    createUrlPath "42" ≠ "/v2" ++ "/service/42/dns/record" :=
  (request_paths_v2_asymmetry "42" "7" 1).1 "/service/42/dns/record"

/-! ## C3: the request signature -/

theorem hexDigit_mem (n : Nat) : hexDigit n ∈ hexChars := by
  unfold hexDigit
  rcases Nat.lt_or_ge n 16 with h | h
  · interval_cases n <;> decide
  · rw [List.getD_eq_default]
    · decide
    · simpa [hexChars] using h

theorem hexEncode_chars (bs : List Nat) : ∀ c ∈ (hexEncode bs).data, c ∈ hexChars := by
  intro c hc
  simp only [hexEncode] at hc
  rcases List.mem_flatMap.mp hc with ⟨b, _, hcb⟩
  simp only [List.mem_cons, List.not_mem_nil, or_false] at hcb
  rcases hcb with h | h <;> exact h ▸ hexDigit_mem _

/-- C3: the signature is the lowercase-hex HMAC-SHA1, keyed by the API
secret, of `"{METHOD} {PATH} {TIMESTAMP}"` (single spaces), it is
deterministic in (method, path, secret, timestamp), and every character of
it is a lowercase hex digit. -/
theorem calculateSignature_hmac_spec (p q : Provider) (method path : String) (ts : Int) :
    calculateSignature p method path ts =
      hexEncode (hmacSha1 (utf8Bytes p.apiSecret)
        (utf8Bytes (method ++ " " ++ path ++ " " ++ toString ts))) ∧
    (p.apiSecret = q.apiSecret →
      calculateSignature p method path ts = calculateSignature q method path ts) ∧
    (∀ c ∈ (calculateSignature p method path ts).data, c ∈ hexChars) := by
  refine ⟨rfl, fun h => ?_, ?_⟩
  · simp [calculateSignature, h]
  · exact hexEncode_chars _

/-- Witness for C3: the spec's fixed regression vector — method `POST`,
path `/v2/service/42/dns/record`, secret `s`, timestamp 1000 — computed
from two distinct configurations sharing the secret gives byte-for-byte
the same signature. -/
theorem calculateSignature_hmac_spec_witness :
    calculateSignature pOk "POST" "/v2/service/42/dns/record" 1000 =
      calculateSignature { pOk with apiKey := "other" } "POST"
        "/v2/service/42/dns/record" 1000 :=
  (calculateSignature_hmac_spec pOk { pOk with apiKey := "other" }
    "POST" "/v2/service/42/dns/record" 1000).2.1 rfl

/-! ## C8: only TXT records survive the listing -/

theorem pageRecords_mem {rec : Record} {pg : ListPage} (h : rec ∈ pageRecords pg) :
    ∃ item, item ∈ pg.data ∧ item.type = "TXT" ∧ rec = Record.txt (wireToTXT item) := by
  rcases List.mem_filterMap.mp h with ⟨item, hitem, hif⟩
  by_cases ht : item.type = "TXT"
  · rw [if_pos ht] at hif
    exact ⟨item, hitem, ht, (Option.some.inj hif).symm⟩
  · rw [if_neg ht] at hif
    cases hif

theorem getRecordsGo_mem (sid : String) (server : Nat → PageReply) :
    ∀ (fuel page : Nat) (acc l : List Record),
      (getRecordsGo sid server fuel page acc).2 = some (Except.ok l) →
      ∀ rec ∈ l, rec ∈ acc ∨ ∃ pn raw pg item,
        server pn = PageReply.reply 200 raw (some pg) ∧ item ∈ pg.data ∧
        item.type = "TXT" ∧ rec = Record.txt (wireToTXT item) := by
  intro fuel
  induction fuel with
  | zero =>
    intro page acc l h
    simp [getRecordsGo] at h
  | succ n ih =>
    intro page acc l h rec hrec
    rw [getRecordsGo] at h
    cases hs : server page with
    | transportErr e =>
      rw [hs] at h
      simp at h
    | reply status raw dec =>
      rw [hs] at h
      simp only [ne_eq] at h
      by_cases h200 : status = 200
      · subst h200
        rw [if_neg (by simp)] at h
        cases dec with
        | none => simp at h
        | some pg =>
          simp only [] at h
          by_cases hstop : pg.currentPage ≥ pg.totalPages
          · rw [if_pos hstop] at h
            simp only [Option.some.injEq, Except.ok.injEq] at h
            subst h
            rcases List.mem_append.mp hrec with hA | hB
            · exact Or.inl hA
            · rcases pageRecords_mem hB with ⟨item, hitem, ht, heq⟩
              exact Or.inr ⟨page, raw, pg, item, hs, hitem, ht, heq⟩
          · rw [if_neg hstop] at h
            rcases ih (page + 1) (acc ++ pageRecords pg) l h rec hrec with hA | hE
            · rcases List.mem_append.mp hA with hA2 | hB
              · exact Or.inl hA2
              · rcases pageRecords_mem hB with ⟨item, hitem, ht, heq⟩
                exact Or.inr ⟨page, raw, pg, item, hs, hitem, ht, heq⟩
            · exact Or.inr hE
      · rw [if_pos h200] at h
        simp at h

/-- C8: every record in a successful `GetRecords` result comes from a wire
item whose type is exactly `"TXT"`; entries of any other type never appear
in the output. -/
theorem getRecords_only_txt_records (p : Provider) (server : Nat → PageReply)
    (fuel : Nat) (l : List Record)
    (h : (GetRecords p server fuel).2 = some (Except.ok l)) :
    ∀ rec ∈ l, ∃ pn raw pg item,
      server pn = PageReply.reply 200 raw (some pg) ∧ item ∈ pg.data ∧
      item.type = "TXT" ∧ rec = Record.txt (wireToTXT item) := by
  intro rec hrec
  by_cases hsid : p.serviceID = ""
  · simp [GetRecords, hsid] at h
  · rw [GetRecords, if_neg hsid] at h
    rcases getRecordsGo_mem p.serviceID server fuel 1 [] l h rec hrec with hA | hE
    · exact absurd hA (List.not_mem_nil rec)
    · exact hE

/-- A one-page listing mixing an `A` record and a `TXT` record. -/
def mixedServer : Nat → PageReply := fun _ =>
  PageReply.reply 200 ""
    (some { currentPage := 1, totalPages := 1, totalRecords := 2,
            data := [ { id := 5, name := "x", type := "A", content := "1.2.3.4", ttl := 600 },
                      { id := 7, name := "t", type := "TXT", content := "v", ttl := 120 } ] })

/-- Witness for C8: on a page holding an `A` item and a `TXT` item, the
single surviving record traces back to a `"TXT"`-typed wire item. -/
theorem getRecords_only_txt_records_witness :
    ∃ pn raw pg item,
      mixedServer pn = PageReply.reply 200 raw (some pg) ∧ item ∈ pg.data ∧
      item.type = "TXT" ∧
      Record.txt { name := "t", text := "v", ttlNs := 120000000000,
                   providerData := some "7" } = Record.txt (wireToTXT item) :=
  getRecords_only_txt_records pOk mixedServer 2
    [ Record.txt { name := "t", text := "v", ttlNs := 120000000000, providerData := some "7" } ]
    rfl
    (Record.txt { name := "t", text := "v", ttlNs := 120000000000, providerData := some "7" })
    (by decide)

/-! ## C5: pagination stops at currentPage >= totalPages -/

/-- C5: pages are requested one at a time starting at page 1 with
`rowsPerPage=100`; against a server reporting `totalPages = 3` and echoing
the requested page as `currentPage`, exactly the three requests for pages
1, 2 and 3 are issued — not four. -/
theorem getRecords_pagination_three_pages
    (p : Provider) (server : Nat → PageReply) (raw : Nat → String)
    (tr : Nat → Int) (d : Nat → List WireItem) (fuel : Nat)
    (hsid : p.serviceID ≠ "")
    (hserver : ∀ n, 1 ≤ n → n ≤ 3 → server n =
      PageReply.reply 200 (raw n)
        (some { currentPage := (n : Int), totalPages := 3,
                totalRecords := tr n, data := d n }))
    (hfuel : 3 ≤ fuel) :
    (GetRecords p server fuel).1 =
      [ listUrlPath p.serviceID 1, listUrlPath p.serviceID 2, listUrlPath p.serviceID 3 ] := by
  obtain ⟨k, rfl⟩ : ∃ k, fuel = k + 3 := ⟨fuel - 3, by omega⟩
  have e1 := hserver 1 (by omega) (by omega)
  have e2 := hserver 2 (by omega) (by omega)
  have e3 := hserver 3 (by omega) (by omega)
  rw [GetRecords, if_neg hsid]
  rw [show k + 3 = k + 1 + 1 + 1 from rfl]
  simp [getRecordsGo, e1, e2, e3]

/-- A server echoing the requested page with `totalPages = 3`. -/
def echo3Server : Nat → PageReply := fun n =>
  PageReply.reply 200 ""
    (some { currentPage := (n : Int), totalPages := 3, totalRecords := 0, data := [] })

/-- Witness for C5 against the concrete echo server: with fuel 5, exactly
three page requests go out. -/
theorem getRecords_pagination_three_pages_witness :
    (GetRecords pOk echo3Server 5).1 =
      [ listUrlPath pOk.serviceID 1, listUrlPath pOk.serviceID 2, listUrlPath pOk.serviceID 3 ] :=
  getRecords_pagination_three_pages pOk echo3Server (fun _ => "") (fun _ => 0)
    (fun _ => []) 5 (by decide) (fun n _ _ => rfl) (by omega)

/-! ## C6: creation succeeds only on 204 and fails fast -/

/-- Number of TXT records in an input batch (non-TXT entries are skipped
by the failed type assertion). -/
def txtCount : List Record → Nat
  | [] => 0
  | Record.txt _ :: rest => txtCount rest + 1
  | Record.other :: rest => txtCount rest

theorem appendGo_all_204 (sid zone : String) (server : Nat → HttpReply)
    (doList : Nat → Except WErr (List Record)) :
    ∀ (recs : List Record) (n : Nat),
      (∀ m, m < txtCount recs → ∃ b, server (n + m) = HttpReply.reply 204 b) →
      (appendGo sid zone server doList recs n).1.length = txtCount recs ∧
      ∃ l, (appendGo sid zone server doList recs n).2 = Except.ok l := by
  intro recs
  induction recs with
  | nil => exact fun n h => ⟨rfl, [], rfl⟩
  | cons rec rest ih =>
    intro n h
    cases rec with
    | other =>
      rw [appendGo]
      exact ih n h
    | txt r =>
      obtain ⟨b, hb⟩ := h 0 (by simp [txtCount])
      rw [Nat.add_zero] at hb
      have hrest := ih (n + 1) (fun m hm => by
        obtain ⟨b2, hb2⟩ := h (m + 1) (by simp only [txtCount]; omega)
        exact ⟨b2, by rwa [show n + (m + 1) = n + 1 + m from by omega] at hb2⟩)
      simp only [appendGo, hb, ne_eq]
      rw [if_neg (by simp)]
      refine ⟨by simp [txtCount, hrest.1], ?_⟩
      obtain ⟨l, hl⟩ := hrest.2
      exact ⟨_, by rw [hl]; rfl⟩

theorem appendGo_abort (sid zone : String) (server : Nat → HttpReply)
    (doList : Nat → Except WErr (List Record)) :
    ∀ (recs : List Record) (n k s : Nat) (b : String),
      s ≠ 204 →
      server (n + k) = HttpReply.reply s b →
      (∀ m, m < k → ∃ b2, server (n + m) = HttpReply.reply 204 b2) →
      k < txtCount recs →
      (appendGo sid zone server doList recs n).1.length = k + 1 ∧
      (appendGo sid zone server doList recs n).2 = Except.error (WErr.remoteErr s b) := by
  intro recs
  induction recs with
  | nil =>
    intro n k s b hs hsrv hm hk
    simp [txtCount] at hk
  | cons rec rest ih =>
    intro n k s b hs hsrv hm hk
    cases rec with
    | other =>
      rw [appendGo]
      exact ih n k s b hs hsrv hm hk
    | txt r =>
      cases k with
      | zero =>
        rw [Nat.add_zero] at hsrv
        simp only [appendGo, hsrv, ne_eq]
        rw [if_pos hs]
        exact ⟨rfl, rfl⟩
      | succ k2 =>
        obtain ⟨b2, hb2⟩ := hm 0 (by omega)
        rw [Nat.add_zero] at hb2
        simp only [appendGo, hb2, ne_eq]
        rw [if_neg (by simp)]
        have hrest := ih (n + 1) k2 s b hs
          (by rwa [show n + 1 + k2 = n + (k2 + 1) from by omega])
          (fun m hm2 => by
            obtain ⟨b3, hb3⟩ := hm (m + 1) (by omega)
            exact ⟨b3, by rwa [show n + (m + 1) = n + 1 + m from by omega] at hb3⟩)
          (by simp only [txtCount] at hk; omega)
        refine ⟨by simp [hrest.1], ?_⟩
        rw [hrest.2]
        rfl

/-- C6: only HTTP 204 counts as creation success.  When every creation
request is answered 204, exactly `txtCount recs` creation requests are
issued and the batch succeeds; when the `k`-th creation request is answered
with any other status, the whole batch fails with that status and body and
exactly `k + 1` creation requests were issued (none for the remaining
records). -/
theorem append_204_fail_fast (p : Provider) (zone : String) (recs : List Record)
    (server : Nat → HttpReply) (doList : Nat → Except WErr (List Record))
    (hsid : p.serviceID ≠ "") :
    ((∀ m, m < txtCount recs → ∃ b, server m = HttpReply.reply 204 b) →
      (AppendRecords p zone recs server doList).1.length = txtCount recs ∧
      ∃ l, (AppendRecords p zone recs server doList).2 = Except.ok l) ∧
    (∀ k s b, s ≠ 204 → server k = HttpReply.reply s b →
      (∀ m, m < k → ∃ b2, server m = HttpReply.reply 204 b2) →
      k < txtCount recs →
      (AppendRecords p zone recs server doList).1.length = k + 1 ∧
      (AppendRecords p zone recs server doList).2 =
        Except.error (WErr.remoteErr s b)) := by
  constructor
  · intro hall
    have h := appendGo_all_204 p.serviceID zone server doList recs 0
      (fun m hm => by simpa using hall m hm)
    simpa [AppendRecords, hsid] using h
  · intro k s b hs hsrv hm hk
    have h := appendGo_abort p.serviceID zone server doList recs 0 k s b hs
      (by simpa using hsrv) (fun m hm2 => by simpa using hm m hm2) hk
    simpa [AppendRecords, hsid] using h

/-- A fresh ACME-style TXT record without an identifier. -/
def rEx : TXT :=
  { name := "_acme-challenge", text := "tok", ttlNs := 0, providerData := none }

/-- A second TXT record. -/
def rEx2 : TXT :=
  { name := "_acme-challenge", text := "tok2", ttlNs := 0, providerData := none }

/-- Witness for C6: two TXT records (plus one non-TXT entry) against an
all-204 server issue exactly two creation requests and succeed. -/
theorem append_204_fail_fast_witness :
    (AppendRecords pOk "example.com" [ Record.txt rEx, Record.other, Record.txt rEx2 ]
      (fun _ => HttpReply.reply 204 "")
      (fun _ => Except.error WErr.decodeErr)).1.length =
      txtCount [ Record.txt rEx, Record.other, Record.txt rEx2 ] ∧
    ∃ l, (AppendRecords pOk "example.com" [ Record.txt rEx, Record.other, Record.txt rEx2 ]
      (fun _ => HttpReply.reply 204 "")
      (fun _ => Except.error WErr.decodeErr)).2 = Except.ok l :=
  (append_204_fail_fast pOk "example.com" [ Record.txt rEx, Record.other, Record.txt rEx2 ]
    (fun _ => HttpReply.reply 204 "") (fun _ => Except.error WErr.decodeErr)
    (by decide)).1 (fun m hm => ⟨"", rfl⟩)

/-! ## C7: identifier resolution in DeleteRecords -/

/-- The exact-match condition of `DeleteRecords`' fallback search, as a
proposition: equal name and equal text, no normalization. -/
def deleteMatchP (r : TXT) : Record → Prop
  | Record.other => False
  | Record.txt t => t.name = r.name ∧ t.text = r.text

theorem findDeleteMatch_none (r : TXT) :
    ∀ L, (∀ rec ∈ L, ¬ deleteMatchP r rec) → findDeleteMatch r L = none := by
  intro L
  induction L with
  | nil => exact fun _ => rfl
  | cons rec rest ih =>
    intro h
    cases rec with
    | other =>
      rw [findDeleteMatch]
      exact ih fun x hx => h x (List.mem_cons_of_mem _ hx)
    | txt t =>
      rw [findDeleteMatch, if_neg (show ¬(t.name = r.name ∧ t.text = r.text) from
        h (Record.txt t) (List.mem_cons_self _ _))]
      exact ih fun x hx => h x (List.mem_cons_of_mem _ hx)

theorem findDeleteMatch_first (r t : TXT) :
    ∀ L1 L2, (∀ rec ∈ L1, ¬ deleteMatchP r rec) →
      t.name = r.name → t.text = r.text →
      findDeleteMatch r (L1 ++ Record.txt t :: L2) = some t := by
  intro L1
  induction L1 with
  | nil =>
    intro L2 _ hn ht
    rw [List.nil_append, findDeleteMatch, if_pos ⟨hn, ht⟩]
  | cons rec rest ih =>
    intro L2 h hn ht
    cases rec with
    | other =>
      rw [List.cons_append, findDeleteMatch]
      exact ih L2 (fun x hx => h x (List.mem_cons_of_mem _ hx)) hn ht
    | txt t2 =>
      rw [List.cons_append, findDeleteMatch,
        if_neg (show ¬(t2.name = r.name ∧ t2.text = r.text) from
          h (Record.txt t2) (List.mem_cons_self _ _))]
      exact ih L2 (fun x hx => h x (List.mem_cons_of_mem _ hx)) hn ht

/-- C7: a record whose provider identifier is a non-empty string is deleted
without any listing call; a record without one is resolved by linear search
for an exactly equal name and text (no normalization), and when nothing
resolves — no match, a match without a usable identifier, or a failed
listing — the record is silently dropped: empty deleted set, no error. -/
theorem delete_identifier_resolution (p : Provider) (zone : String) (r : TXT)
    (server : Nat → HttpReply) (doList : Nat → Except WErr (List Record))
    (hsid : p.serviceID ≠ "") :
    (recID r ≠ "" → (DeleteRecords p zone [ Record.txt r ] server doList).1 = 0) ∧
    (∀ L1 L2 (t : TXT) b,
      recID r = "" →
      doList 0 = Except.ok (L1 ++ Record.txt t :: L2) →
      (∀ rec ∈ L1, ¬ deleteMatchP r rec) →
      t.name = r.name → t.text = r.text → recID t ≠ "" →
      server 0 = HttpReply.reply 204 b →
      DeleteRecords p zone [ Record.txt r ] server doList =
        (1, [ deleteUrlPath p.serviceID (recID t) ], Except.ok [ Record.txt r ])) ∧
    (recID r = "" →
      (∀ L, doList 0 = Except.ok L → (∀ rec ∈ L, ¬ deleteMatchP r rec) →
        DeleteRecords p zone [ Record.txt r ] server doList = (1, [], Except.ok [])) ∧
      (∀ e, doList 0 = Except.error e →
        DeleteRecords p zone [ Record.txt r ] server doList = (1, [], Except.ok []))) := by
  refine ⟨fun hid => ?_, fun L1 L2 t b hid hdo hnm hn ht hidt hsrv => ?_, fun hid => ⟨fun L hdo hnone => ?_, fun e hdo => ?_⟩⟩
  · rw [DeleteRecords, if_neg hsid]
    simp only [deleteGo]
    rw [if_pos hid]
    cases hs : server 0 with
    | transportErr e => rfl
    | reply status body =>
      simp only []
      split <;> rfl
  · rw [DeleteRecords, if_neg hsid]
    simp only [deleteGo, hdo, hsrv, findDeleteMatch_first r t L1 L2 hnm hn ht, ne_eq]
    rw [if_neg (by simpa using hid), if_neg hidt, if_neg (by simp)]
    rfl
  · rw [DeleteRecords, if_neg hsid]
    simp only [deleteGo, hdo, findDeleteMatch_none r L hnone, ne_eq]
    rw [if_neg (by simpa using hid)]
  · rw [DeleteRecords, if_neg hsid]
    simp only [deleteGo, hdo, ne_eq]
    rw [if_neg (by simpa using hid)]

/-- The remote copy of `rEx`, as `GetRecords` would return it. -/
def tEx : TXT :=
  { name := "_acme-challenge", text := "tok", ttlNs := 120000000000,
    providerData := some "7" }

/-- Witness for C7: an identifier-less record resolved against a listing
holding an exact match with id 7 issues exactly the one deletion request
for id 7. -/
theorem delete_identifier_resolution_witness :
    DeleteRecords pOk "example.com" [ Record.txt rEx ]
      (fun _ => HttpReply.reply 204 "")
      (fun _ => Except.ok [ Record.txt tEx ]) =
      (1, [ deleteUrlPath pOk.serviceID (recID tEx) ], Except.ok [ Record.txt rEx ]) :=
  (delete_identifier_resolution pOk "example.com" rEx
    (fun _ => HttpReply.reply 204 "")
    (fun _ => Except.ok [ Record.txt tEx ]) (by decide)).2.1
    [] [] tEx "" rfl rfl (fun rec h => absurd h (List.not_mem_nil rec))
    rfl rfl (by decide) rfl

/-! ## C1: reconciliation after creation in AppendRecords -/

/-- The match condition of `AppendRecords`' reconciliation loop, as a
proposition: the listed record's name, stripped of one trailing dot and
then of one trailing `"." ++ zone-without-trailing-dot` suffix, equals the
input name stripped of one trailing dot, and the texts are equal. -/
def appendMatchP (zone : String) (r : TXT) : Record → Prop
  | Record.other => False
  | Record.txt t =>
    trimSuffix (trimSuffix t.name ".") ("." ++ trimSuffix zone ".") =
      trimSuffix r.name "." ∧ t.text = r.text

theorem findCreatedMatch_none (zone : String) (r : TXT) :
    ∀ L, (∀ rec ∈ L, ¬ appendMatchP zone r rec) → findCreatedMatch zone r L = none := by
  intro L
  induction L with
  | nil => exact fun _ => rfl
  | cons rec rest ih =>
    intro h
    cases rec with
    | other =>
      rw [findCreatedMatch]
      exact ih fun x hx => h x (List.mem_cons_of_mem _ hx)
    | txt t =>
      rw [findCreatedMatch, if_neg (show ¬(trimSuffix (trimSuffix t.name ".")
          ("." ++ trimSuffix zone ".") = trimSuffix r.name "." ∧ t.text = r.text) from
        h (Record.txt t) (List.mem_cons_self _ _))]
      exact ih fun x hx => h x (List.mem_cons_of_mem _ hx)

theorem findCreatedMatch_first (zone : String) (r t : TXT) :
    ∀ L1 L2, (∀ rec ∈ L1, ¬ appendMatchP zone r rec) →
      trimSuffix (trimSuffix t.name ".") ("." ++ trimSuffix zone ".") =
        trimSuffix r.name "." →
      t.text = r.text →
      findCreatedMatch zone r (L1 ++ Record.txt t :: L2) = some t := by
  intro L1
  induction L1 with
  | nil =>
    intro L2 _ hn ht
    rw [List.nil_append, findCreatedMatch, if_pos ⟨hn, ht⟩]
  | cons rec rest ih =>
    intro L2 h hn ht
    cases rec with
    | other =>
      rw [List.cons_append, findCreatedMatch]
      exact ih L2 (fun x hx => h x (List.mem_cons_of_mem _ hx)) hn ht
    | txt t2 =>
      rw [List.cons_append, findCreatedMatch, if_neg (show ¬(trimSuffix
          (trimSuffix t2.name ".") ("." ++ trimSuffix zone ".") =
            trimSuffix r.name "." ∧ t2.text = r.text) from
        h (Record.txt t2) (List.mem_cons_self _ _))]
      exact ih L2 (fun x hx => h x (List.mem_cons_of_mem _ hx)) hn ht

/-- C1: after a creation answered 204, when the listing succeeds the
identifier copied onto the returned record is that of the first listed TXT
record matching by normalized name and exact text; when nothing matches or
the listing fails, the record is returned unchanged — still without an
identifier — and no error is raised. -/
theorem append_reconciliation_first_match
    (sid zone : String) (r t : TXT) (rest : List Record) (n : Nat)
    (server : Nat → HttpReply) (doList : Nat → Except WErr (List Record))
    (b : String) (L L1 L2 : List Record)
    (hsrv : server n = HttpReply.reply 204 b)
    (hr : r.providerData = none) :
    (doList n = Except.ok L → L = L1 ++ Record.txt t :: L2 →
      (∀ rec ∈ L1, ¬ appendMatchP zone (defTTL r) rec) →
      appendMatchP zone (defTTL r) (Record.txt t) →
      appendGo sid zone server doList (Record.txt r :: rest) n =
        (createPost sid r :: (appendGo sid zone server doList rest (n + 1)).1,
         (appendGo sid zone server doList rest (n + 1)).2.map
           fun l => Record.txt { defTTL r with providerData := t.providerData } :: l)) ∧
    (doList n = Except.ok L → (∀ rec ∈ L, ¬ appendMatchP zone (defTTL r) rec) →
      appendGo sid zone server doList (Record.txt r :: rest) n =
        (createPost sid r :: (appendGo sid zone server doList rest (n + 1)).1,
         (appendGo sid zone server doList rest (n + 1)).2.map
           fun l => Record.txt (defTTL r) :: l)) ∧
    (∀ e, doList n = Except.error e →
      appendGo sid zone server doList (Record.txt r :: rest) n =
        (createPost sid r :: (appendGo sid zone server doList rest (n + 1)).1,
         (appendGo sid zone server doList rest (n + 1)).2.map
           fun l => Record.txt (defTTL r) :: l)) ∧
    (defTTL r).providerData = none := by
  refine ⟨fun hdo hL hnm hmt => ?_, fun hdo hnone => ?_, fun e hdo => ?_, ?_⟩
  · subst hL
    obtain ⟨h1, h2⟩ := hmt
    simp only [appendGo, hsrv, ne_eq]
    rw [if_neg (by simp)]
    simp only [reconcile, hdo, findCreatedMatch_first zone (defTTL r) t L1 L2 hnm h1 h2]
  · simp only [appendGo, hsrv, ne_eq]
    rw [if_neg (by simp)]
    simp only [reconcile, hdo, findCreatedMatch_none zone (defTTL r) L hnone]
  · simp only [appendGo, hsrv, ne_eq]
    rw [if_neg (by simp)]
    simp only [reconcile, hdo]
  · unfold defTTL
    split <;> exact hr

/-- The remote copy of `rEx` under zone `example.com`, fully qualified with
a trailing dot, as the claim's example requires. -/
def tExFq : TXT :=
  { name := "_acme-challenge.example.com.", text := "tok", ttlNs := 120000000000,
    providerData := some "9" }

/-- Witness for C1 at the claim's example: input name `_acme-challenge`,
zone `example.com`, remote name `_acme-challenge.example.com.` — the
remote identifier 9 is copied onto the created record. -/
theorem append_reconciliation_first_match_witness :
    appendGo "1" "example.com"
      (fun _ => HttpReply.reply 204 "") (fun _ => Except.ok [ Record.txt tExFq ])
      [ Record.txt rEx ] 0 =
      (createPost "1" rEx ::
         (appendGo "1" "example.com" (fun _ => HttpReply.reply 204 "")
           (fun _ => Except.ok [ Record.txt tExFq ]) [] 1).1,
       (appendGo "1" "example.com" (fun _ => HttpReply.reply 204 "")
           (fun _ => Except.ok [ Record.txt tExFq ]) [] 1).2.map
         fun l => Record.txt { defTTL rEx with providerData := tExFq.providerData } :: l) :=
  (append_reconciliation_first_match "1" "example.com" rEx tExFq [] 0
    (fun _ => HttpReply.reply 204 "") (fun _ => Except.ok [ Record.txt tExFq ])
    "" [ Record.txt tExFq ] [] [] rfl rfl).1 rfl rfl
    (fun rec h => absurd h (List.not_mem_nil rec)) (by constructor <;> decide)

/-! ## C9: the creation body is raw interpolation, not JSON encoding -/

/-- JSON string escaping of one character (quote and backslash are the two
characters the body's string positions can contain that JSON requires to be
escaped). -/
def jsonEscapeChar (c : Char) : List Char :=
  if c = '"' ∨ c = '\\' then [ '\\', c ] else [c]

/-- A correctly escaped JSON string literal. -/
def jsonStringLit (s : String) : String :=
  "\"" ++ String.mk (s.data.flatMap jsonEscapeChar) ++ "\""

/-- A valid JSON encoding of the creation body's record shape
`(type, name, content, ttl)`, with properly escaped string literals; the
comparator for `makeBody`. -/
def jsonRecordBody (name text : String) (ttlSec : Int) : String :=
  "\x7b\"type\":\"TXT\",\"name\":" ++ jsonStringLit name ++ ",\"content\":" ++
    jsonStringLit text ++ ",\"ttl\":" ++ toString ttlSec ++ "\x7d"

/-- Parse a JSON string literal body after the opening quote: stop at an
unescaped quote, accept `\"` and `\\` escapes, reject a bare backslash. -/
def parseStrAux : List Char → Option (List Char × List Char)
  | [] => none
  | c :: rest =>
    if c = '"' then some ([], rest)
    else if c = '\\' then
      match rest with
      | [] => none
      | c2 :: rest2 =>
        if c2 = '"' ∨ c2 = '\\' then
          (parseStrAux rest2).map fun p => (c2 :: p.1, p.2)
        else none
    else (parseStrAux rest).map fun p => (c :: p.1, p.2)

/-- Parse a JSON string literal including its opening quote. -/
def parseStrLit : List Char → Option (List Char × List Char)
  | '"' :: rest => parseStrAux rest
  | _ => none

/-- Consume an exact literal character sequence. -/
def dropLit : List Char → List Char → Option (List Char)
  | [], s => some s
  | _ :: _, [] => none
  | c :: cs, d :: ds => if c = d then dropLit cs ds else none

/-- Split off a leading run of decimal digits. -/
def takeDigits : List Char → List Char × List Char
  | [] => ([], [])
  | c :: cs =>
    if c.isDigit then ((c :: (takeDigits cs).1), (takeDigits cs).2)
    else ([], c :: cs)

/-- The value of a digit run. -/
def digitsToNat (l : List Char) : Nat :=
  l.foldl (fun a c => a * 10 + (c.toNat - 48)) 0

/-- Parse a JSON integer (optional minus sign, at least one digit). -/
def parseInt : List Char → Option (Int × List Char)
  | '-' :: rest =>
    if (takeDigits rest).1 = [] then none
    else some (-(Int.ofNat (digitsToNat (takeDigits rest).1)), (takeDigits rest).2)
  | l =>
    if (takeDigits l).1 = [] then none
    else some (Int.ofNat (digitsToNat (takeDigits l).1), (takeDigits l).2)

/-- Decode a creation body of the exact shape the client emits —
`\x7b"type":S,"name":S,"content":S,"ttl":N\x7d` with JSON string literals
at the S positions — back into `(type, name, content, ttl)`.  The body is a
valid JSON encoding of a record exactly when this decoder returns it. -/
def decodeRecordBody (s : String) : Option (String × String × String × Int) := do
  let r0 ← dropLit ( "\x7b\"type\":" ).data s.data
  let (ty, r1) ← parseStrLit r0
  let r2 ← dropLit ( ",\"name\":" ).data r1
  let (nm, r3) ← parseStrLit r2
  let r4 ← dropLit ( ",\"content\":" ).data r3
  let (ct, r5) ← parseStrLit r4
  let r6 ← dropLit ( ",\"ttl\":" ).data r5
  let (ttl, r7) ← parseInt r6
  if r7 = [ '\x7d' ] then some (String.mk ty, String.mk nm, String.mk ct, ttl)
  else none

theorem flatMap_jsonEscapeChar_id (l : List Char)
    (h : ∀ c ∈ l, ¬(c = '"' ∨ c = '\\')) : l.flatMap jsonEscapeChar = l := by
  induction l with
  | nil => rfl
  | cons c cs ih =>
    rw [List.flatMap_cons,
      show jsonEscapeChar c = [c] from if_neg (h c (List.mem_cons_self _ _)),
      ih fun x hx => h x (List.mem_cons_of_mem _ hx)]
    rfl

theorem data_mk (l : List Char) : (String.mk l).data = l := rfl

/-- C9: the creation body is built by direct interpolation: for names and
texts free of double quotes and backslashes it coincides with the proper
JSON encoding, but for a text containing a double quote the emitted body is
not a valid JSON encoding of the record — while the properly escaped
encoding of the same record decodes fine. -/
theorem append_body_no_escaping :
    (∀ name text ttl,
      (∀ c ∈ name.data, ¬(c = '"' ∨ c = '\\')) →
      (∀ c ∈ text.data, ¬(c = '"' ∨ c = '\\')) →
      makeBody name text ttl = jsonRecordBody name text ttl) ∧
    decodeRecordBody (makeBody "n" "a\"b" 120) ≠
      some ("TXT", "n", "a\"b", (120 : Int)) ∧
    decodeRecordBody (jsonRecordBody "n" "a\"b" 120) =
      some ("TXT", "n", "a\"b", (120 : Int)) := by
  refine ⟨fun name text ttl h1 h2 => ?_, by decide, by decide⟩
  refine str_ext ?_
  simp [makeBody, jsonRecordBody, jsonStringLit, data_mk,
    flatMap_jsonEscapeChar_id _ h1, flatMap_jsonEscapeChar_id _ h2,
    String.data_append]

/-- Witness for C9 on plain name and text. -/
theorem append_body_no_escaping_witness :
    makeBody "n" "t" 120 = jsonRecordBody "n" "t" 120 :=
  append_body_no_escaping.1 "n" "t" 120 (by decide) (by decide)

end Websupport
